import Mathlib

/-!
Verification of the Amazon crawler pipeline (src/src/*.py) against its
specification.  The Python sources are shallowly embedded: each Python
function is translated to a Lean definition of the same name (leading
underscores dropped), grouped in namespaces named after the Python classes.
Python strings are Lean `String`s, floats are `ℚ`, dictionaries built by the
parsers become Lean structures, HTML documents are abstracted to the query
interface the code actually uses (`Soup.select`, `Element.selOne`), and the
network is an explicit environment parameter (`String → Option Soup`,
`none` modelling a request that raises).  Page-fetch counts are returned as
explicit instrumentation components where the specification speaks about
the number of fetches.
-/

/-! ## Python string and regex primitives used by the sources -/

/-- Python `str.strip()` on a character list: drop whitespace from both ends. -/
def pyStripList (cs : List Char) : List Char :=
  List.rdropWhile Char.isWhitespace (cs.dropWhile Char.isWhitespace)

/-- Python `str.strip()` on a `String`.  Also models BeautifulSoup
`get_text(strip=True)` applied to a node's text content: the result never has
leading or trailing whitespace and is empty on whitespace-only input. -/
def pyStrip (s : String) : String := ⟨pyStripList s.data⟩

/-- Python `int(...)` on a string of decimal digits. -/
def natOfDigits (cs : List Char) : ℕ :=
  cs.foldl (fun n c => 10 * n + (c.toNat - '0'.toNat)) 0

/-- First match of the regex `\d+` (as used via `re.findall(r'\d+', s)[0]`):
the leftmost maximal run of decimal digits, if any. -/
def findDigitToken : List Char → Option (List Char)
  | [] => none
  | c :: cs =>
    if c.isDigit then some ((c :: cs).takeWhile Char.isDigit)
    else findDigitToken cs

/-- Match of the regex `\d+\.?\d*` anchored at the start of `cs`: maximal run
of digits, an optional dot, then a maximal run of digits. -/
def matchFloatAt (cs : List Char) : Option (List Char) :=
  match cs.takeWhile Char.isDigit with
  | [] => none
  | ds =>
    match cs.dropWhile Char.isDigit with
    | '.' :: rest => some (ds ++ '.' :: rest.takeWhile Char.isDigit)
    | _ => some ds

/-- First match of the regex `\d+\.?\d*` (as used via
`re.findall(r'\d+\.?\d*', s)[0]`): leftmost match wins. -/
def findFloatToken : List Char → Option (List Char)
  | [] => none
  | c :: cs =>
    match matchFloatAt (c :: cs) with
    | some tok => some tok
    | none => findFloatToken cs

/-- First match of the regex `[\d,]+` (as used via
`re.findall(r'[\d,]+', s)[0]`): leftmost maximal run of digits and commas. -/
def findDigitCommaToken : List Char → Option (List Char)
  | [] => none
  | c :: cs =>
    if c.isDigit || c = ',' then
      some ((c :: cs).takeWhile (fun d => d.isDigit || d = ','))
    else findDigitCommaToken cs

/-- Python `float(...)` on a token matched by `\d+\.?\d*`, as an exact
rational: integer part plus fractional part (digits after the dot scaled by
the corresponding power of ten). -/
def floatOfToken (cs : List Char) : ℚ :=
  let intPart := cs.takeWhile Char.isDigit
  let frac :=
    match cs.dropWhile Char.isDigit with
    | '.' :: rest => rest
    | _ => []
  mkRat (natOfDigits intPart * 10 ^ frac.length + natOfDigits frac) (10 ^ frac.length)

/-! ## Abstract DOM model

The parsers use BeautifulSoup only through `soup.select(selector)` (all
matching nodes), `element.select_one(selector)` followed by
`get_text(strip=True)`, and `element.find('a', href=True)`.  An `Element`
is therefore modelled by the answers to those queries: `selOne sel` is the
text content of the first node matching `sel` (`none` when there is no such
node, or when the selector raises — both are handled identically by the
sources), and `firstHref` is the `href` attribute of the first anchor child.
`get_text(strip=True)` is modelled by applying `pyStrip` to the content. -/

structure Element where
  selOne : String → Option String
  firstHref : Option String := none

/-- A parsed HTML document, abstracted to its `select` query. -/
structure Soup where
  select : String → List Element

/-- The first selector of `sels` whose `soup.select` result is non-empty
wins; if none matches, the block list is empty (the shared
`for selector in selectors: if elements: break` idiom). -/
def selectFirst (soup : Soup) : List String → List Element
  | [] => []
  | sel :: rest =>
    match soup.select sel with
    | [] => selectFirst soup rest
    | es => es

/-! ## Review and Listing records -/

/-- The review dictionary built by AmazonParser._extract_single_review. -/
structure Review where
  reviewer_name : String
  rating : ℚ
  title : String
  text : String
  date : String
  helpful_votes : ℕ
deriving DecidableEq

/-- The product dictionary built by AmazonSearcher._extract_product_info;
the crawler later adds the reviews key, absent listings keep the default. -/
structure Listing where
  title : String
  price : String
  rating : ℚ
  reviews_count : ℕ
  url : Option String
  reviews : List Review := []
deriving DecidableEq

/-! ## src/src/parser.py — AmazonParser -/

namespace AmazonParser

/-- Python AmazonParser._extract_text_by_selectors: try each selector in
order, returning the first non-empty stripped text; selector errors and
missing nodes fall through to the next selector; default is the empty
string. -/
def extract_text_by_selectors (e : Element) : List String → String
  | [] => ""
  | sel :: rest =>
    match e.selOne sel with
    | some raw => if pyStrip raw = "" then extract_text_by_selectors e rest else pyStrip raw
    | none => extract_text_by_selectors e rest

/-- Python AmazonParser._parse_rating_from_text: empty text gives 0.0,
otherwise the first match of the regex `\d+\.?\d*` converted by `float`,
and 0.0 when there is no match. -/
def parse_rating_from_text (s : String) : ℚ :=
  if s = "" then 0
  else
    match findFloatToken s.data with
    | some tok => floatOfToken tok
    | none => 0

/-- Python AmazonParser._parse_helpful_votes: empty text gives 0, otherwise
the first match of the regex `\d+` converted by `int`, and 0 when there is
no match. -/
def parse_helpful_votes (s : String) : ℕ :=
  if s = "" then 0
  else
    match findDigitToken s.data with
    | some tok => natOfDigits tok
    | none => 0

def name_selectors : List String :=
  [".a-profile-name", "[data-hook=\"review-author\"]", ".review-byline .author"]

def rating_selectors : List String :=
  [".a-icon-alt", "[data-hook=\"review-star-rating\"] .a-icon-alt",
   ".a-star-rating .a-icon-alt"]

def title_selectors : List String :=
  ["[data-hook=\"review-title\"]", ".review-title", "h3"]

def text_selectors : List String :=
  ["[data-hook=\"review-body\"]", ".review-text", ".a-expander-content"]

def date_selectors : List String :=
  ["[data-hook=\"review-date\"]", ".review-date", ".a-size-base.a-color-secondary"]

def helpful_selectors : List String :=
  ["[data-hook=\"helpful-vote-statement\"]", ".a-size-base.a-color-tertiary"]

/-- Python AmazonParser._extract_single_review: extract the six fields with
their selector lists and return a review dictionary only when the review
text is non-empty; otherwise (and on any extraction exception) return
`None`. -/
def extract_single_review (e : Element) : Option Review :=
  let reviewer_name := extract_text_by_selectors e name_selectors
  let rating := parse_rating_from_text (extract_text_by_selectors e rating_selectors)
  let review_title := extract_text_by_selectors e title_selectors
  let review_text := extract_text_by_selectors e text_selectors
  let review_date := extract_text_by_selectors e date_selectors
  let helpful_votes := parse_helpful_votes (extract_text_by_selectors e helpful_selectors)
  if review_text = "" then none
  else
    some
      { reviewer_name := if reviewer_name = "" then "Anonymous" else pyStrip reviewer_name
        rating := rating
        title := if review_title = "" then "" else pyStrip review_title
        text := pyStrip review_text
        date := if review_date = "" then "" else pyStrip review_date
        helpful_votes := helpful_votes }

def review_selectors : List String :=
  ["[data-hook=\"review\"]", "div[data-hook=\"review\"]",
   ".a-section[data-hook=\"review\"]", ".cr-original-review-item",
   ".a-section.cr-original-review-item", ".a-section.a-spacing-small.review",
   ".a-section.review", ".review", "[id*=\"customer-review\"]",
   ".a-section.a-spacing-none.review"]

/-- Python AmazonParser.parse_reviews: pick the first review selector with
matches, then keep every element whose extraction yields a review; elements
raising or returning `None` are skipped. -/
def parse_reviews (soup : Soup) : List Review :=
  (selectFirst soup review_selectors).filterMap extract_single_review

/-- Python AmazonParser.filter_by_rating: keep products whose rating is at
least the minimum, in order. -/
def filter_by_rating (products : List Listing) (min_rating : ℚ) : List Listing :=
  products.filter (fun p => decide (min_rating ≤ p.rating))

end AmazonParser

/-! ## src/src/search.py — AmazonSearcher -/

/-- Modelled from the spec: the standard-library urljoin, reduced to the two
cases the crawler produces (absolute hrefs kept, site-relative hrefs
appended to the base).  No theorem below depends on the joined value. -/
def urljoin (base href : String) : String :=
  if "http".data.isPrefixOf href.data then href else base ++ href

def amazon_base_url : String := "https://www.amazon.com"

namespace AmazonSearcher

/-- Python AmazonSearcher._extract_text_by_selectors (the searcher carries
its own copy of the selector-fallback helper, identical to the parser's). -/
def extract_text_by_selectors (e : Element) : List String → String
  | [] => ""
  | sel :: rest =>
    match e.selOne sel with
    | some raw => if pyStrip raw = "" then extract_text_by_selectors e rest else pyStrip raw
    | none => extract_text_by_selectors e rest

/-- Python AmazonSearcher._parse_rating: identical to
AmazonParser._parse_rating_from_text. -/
def parse_rating (s : String) : ℚ :=
  if s = "" then 0
  else
    match findFloatToken s.data with
    | some tok => floatOfToken tok
    | none => 0

/-- Python AmazonSearcher._extract_review_count: per selector, require only
that a node exists, extract the first `[\d,]+` token from its stripped text,
strip commas and convert with `int`; a token of commas only makes `int`
raise, which the bare except turns into trying the next selector; default
is 0. -/
def extract_review_count (e : Element) : List String → ℕ
  | [] => 0
  | sel :: rest =>
    match e.selOne sel with
    | some raw =>
      match findDigitCommaToken (pyStrip raw).data with
      | some tok =>
        let digits := tok.filter (fun c => c ≠ ',')
        if digits = [] then extract_review_count e rest else natOfDigits digits
      | none => extract_review_count e rest
    | none => extract_review_count e rest

def title_selectors : List String :=
  ["h2 a span", ".s-size-mini .s-color-base", "[data-cy=\"title-recipe-title\"]",
   "h2 span"]

def price_selectors : List String :=
  [".a-price-whole", ".a-price .a-offscreen", ".a-price-range", ".a-price-symbol"]

def rating_selectors : List String :=
  [".a-icon-alt", ".a-icon-star-small .a-icon-alt", "[aria-label*=\"stars\"]"]

def review_selectors : List String :=
  [".a-size-base", "[aria-label*=\"ratings\"]", ".a-link-normal"]

/-- Python AmazonSearcher._extract_product_info: extract the five fields and
return a product dictionary only when a title was found; otherwise (and on
any extraction exception) return `None`. -/
def extract_product_info (e : Element) : Option Listing :=
  let title := extract_text_by_selectors e title_selectors
  let price := extract_text_by_selectors e price_selectors
  let rating := parse_rating (extract_text_by_selectors e rating_selectors)
  let review_count := extract_review_count e review_selectors
  let url := e.firstHref.map (urljoin amazon_base_url)
  if title = "" then none
  else
    some
      { title := pyStrip title
        price := if price = "" then "N/A" else pyStrip price
        rating := rating
        reviews_count := review_count
        url := url }

def product_selectors : List String :=
  ["div[data-component-type=\"s-search-result\"]", ".s-result-item", "[data-asin]"]

/-- Python AmazonSearcher._parse_search_results: pick the first product
selector with matches, cap the blocks at `max_results`, and keep every
block whose extraction yields a product. -/
def parse_search_results (soup : Soup) (max_results : ℕ) : List Listing :=
  ((selectFirst soup product_selectors).take max_results).filterMap extract_product_info

/-- Python AmazonSearcher.search_products, with the network abstracted: the
argument is the successfully fetched and soup-parsed response, or `none`
when the request still fails after the retries (the logged-error path that
returns an empty list). -/
def search_products (response : Option Soup) (max_results : ℕ) : List Listing :=
  match response with
  | none => []
  | some soup => parse_search_results soup max_results

end AmazonSearcher

/-! ## src/src/review_crawler.py — ReviewCrawler -/

/-- Character class `[A-Z0-9]` of the ASIN patterns. -/
def isAsinChar (c : Char) : Bool := c.isUpper || c.isDigit

/-- Match of `lit([A-Z0-9]{10})` anchored at the start of `cs`: the literal
followed by exactly ten class characters; the captured group is returned. -/
def matchAsinAt (lit : List Char) (cs : List Char) : Option String :=
  if lit.isPrefixOf cs then
    let asin := (cs.drop lit.length).take 10
    if asin.length = 10 && asin.all isAsinChar then some ⟨asin⟩ else none
  else none

/-- Python `re.search` for the pattern `lit([A-Z0-9]{10})`: the leftmost
position where the pattern matches wins. -/
def searchAsin (lit : List Char) : List Char → Option String
  | [] => matchAsinAt lit []
  | c :: cs =>
    match matchAsinAt lit (c :: cs) with
    | some a => some a
    | none => searchAsin lit cs

namespace ReviewCrawler

/-- Python ReviewCrawler._extract_asin_from_url: the three patterns tried in
order — URL-encoded `%2Fdp%2F` form first, then `/dp/`, then `/product/`. -/
def extract_asin_from_url (url : String) : Option String :=
  match searchAsin "%2Fdp%2F".data url.data with
  | some a => some a
  | none =>
    match searchAsin "/dp/".data url.data with
    | some a => some a
    | none => searchAsin "/product/".data url.data

/-- Python ReviewCrawler._get_reviews_url: build the product-reviews URL
from the extracted ASIN, `None` when no pattern matched. -/
def get_reviews_url (product_url : String) : Option String :=
  (extract_asin_from_url product_url).map fun asin =>
    amazon_base_url ++ "/product-reviews/" ++ asin ++
      "/ref=cm_cr_dp_d_show_all_btm?ie=UTF8&reviewerType=all_reviews"

/-- Python ReviewCrawler._add_pagination_to_url: page 1 keeps the URL, later
pages append a pageNumber query parameter. -/
def add_pagination_to_url (reviews_url : String) (page : ℕ) : String :=
  if page ≤ 1 then reviews_url
  else if reviews_url.data.contains '?' then
    reviews_url ++ "&pageNumber=" ++ toString page
  else reviews_url ++ "?pageNumber=" ++ toString page

/-- Python ReviewCrawler._crawl_reviews_page, with the network abstracted to
`net : String → Option Soup` (`none` for a request that raises — the caught
path returning an empty list): parse the page's reviews and truncate at
`max_reviews`. -/
def crawl_reviews_page (net : String → Option Soup) (reviews_url : String)
    (max_reviews : ℕ) : List Review :=
  match net reviews_url with
  | none => []
  | some soup => (AmazonParser.parse_reviews soup).take max_reviews

/-- The `while current_page <= max_pages` loop of
ReviewCrawler.crawl_product_reviews, recursing on
`remaining = max_pages - page + 1`.  The second component counts the page
fetches issued (`_crawl_reviews_page` calls); a page yielding no reviews is
itself fetched, stops the loop, and contributes nothing to the result. -/
def crawl_pages (net : String → Option Soup) (reviews_url : String)
    (max_reviews : ℕ) : ℕ → ℕ → List Review × ℕ
  | _, 0 => ([], 0)
  | page, remaining + 1 =>
    let reviews := crawl_reviews_page net (add_pagination_to_url reviews_url page) max_reviews
    if reviews = [] then ([], 1)
    else
      let rest := crawl_pages net reviews_url max_reviews (page + 1) remaining
      (reviews ++ rest.1, rest.2 + 1)

/-- Python ReviewCrawler.crawl_product_reviews: derive the reviews URL (an
unmatched product URL returns immediately) and run the pagination loop from
page 1.  The second component is the number of page fetches issued. -/
def crawl_product_reviews (net : String → Option Soup) (product_url : String)
    (max_pages max_reviews_per_page : ℕ) : List Review × ℕ :=
  match get_reviews_url product_url with
  | none => ([], 0)
  | some u => crawl_pages net u max_reviews_per_page 1 max_pages

end ReviewCrawler

/-! ## src/src/robots.py — RobotsChecker -/

/-- Modelled from the spec: the parse produced by the standard
robots-exclusion parser (urllib.robotparser.RobotFileParser, standard
library, not part of this repository), reduced to explicit Disallow rules:
for each user agent, the list of disallowed path prefixes of its matching
section. -/
structure RobotRules where
  disallow : String → List String

/-- Modelled from the spec: RobotFileParser.can_fetch — a path is permitted
for an agent iff no explicit Disallow rule of the agent's section is a
prefix of the path. -/
def RobotRules.canFetch (r : RobotRules) (user_agent path : String) : Bool :=
  (r.disallow user_agent).all fun p => !(p.data.isPrefixOf path.data)

namespace RobotsChecker

/-- Python RobotsChecker.can_crawl: every call sets the robots URL, reads it
(one fetch attempt, modelled by the environment `robots_fetch` — `.error`
when the read raises) and asks the freshly parsed rules; any exception is
caught and answered with `True`.  The second component counts the robots
fetch attempts the call performs (always one: `read()` is called
unconditionally). -/
def can_crawl (robots_fetch : Except Unit RobotRules) (path : String)
    (user_agent : String) : Bool × ℕ :=
  match robots_fetch with
  | .error _ => (true, 1)
  | .ok rules => (rules.canFetch user_agent path, 1)

/-- A sequence of can_crawl calls on one RobotsChecker instance against the
same robots environment: the answers, and the total number of robots fetch
attempts performed. -/
def can_crawl_calls (robots_fetch : Except Unit RobotRules) :
    List (String × String) → List Bool × ℕ
  | [] => ([], 0)
  | (path, agent) :: rest =>
    let r := can_crawl robots_fetch path agent
    let rs := can_crawl_calls robots_fetch rest
    (r.1 :: rs.1, r.2 + rs.2)

end RobotsChecker

/-! ## src/src/crawler.py — AmazonCrawler -/

namespace AmazonCrawler

/-- The interactive authentication preamble of AmazonCrawler.crawl_products:
when reviews are requested and the session is not authenticated, the user is
prompted; declining (or EOF on input) disables review crawling, agreeing
keeps it only when authentication succeeds. -/
def resolve_crawl_reviews (crawl_reviews is_authenticated user_says_yes
    authenticate_succeeds : Bool) : Bool :=
  if crawl_reviews && !is_authenticated then
    if user_says_yes then
      if authenticate_succeeds then crawl_reviews else false
    else false
  else crawl_reviews

/-- Python AmazonCrawler.crawl_products, with the effectful collaborators
abstracted: `robots_fetch` is the robots read result, `response` the search
response (as in `search_products`), `net` the network seen by the review
crawler.  Resolve the review flag, gate on robots, search, filter by rating
when the threshold is positive, and attach crawled reviews to every listing
that has a URL. -/
def crawl_products (robots_fetch : Except Unit RobotRules) (response : Option Soup)
    (net : String → Option Soup) (min_rating : ℚ) (max_results : ℕ)
    (crawl_reviews is_authenticated user_says_yes authenticate_succeeds : Bool)
    (max_review_pages : ℕ) : List Listing :=
  let do_reviews := resolve_crawl_reviews crawl_reviews is_authenticated
    user_says_yes authenticate_succeeds
  if (RobotsChecker.can_crawl robots_fetch "/s" "*").1 = false then []
  else
    let products := AmazonSearcher.search_products response max_results
    let products :=
      if 0 < min_rating then AmazonParser.filter_by_rating products min_rating
      else products
    if do_reviews then
      products.map fun p =>
        match p.url with
        | some u =>
          { p with reviews := (ReviewCrawler.crawl_product_reviews net u max_review_pages 10).1 }
        | none => p
    else products

end AmazonCrawler

/-! ## src/src/storage.py — DataStorage -/

namespace DataStorage

/-- A Python dict with string keys and stringified values, as an
insertion-ordered association list with distinct keys. -/
abbrev Record := List (String × String)

/-- Python `dict.keys()` in insertion order. -/
def Record.keys (d : Record) : List String := d.map Prod.fst

/-- Modelled from the spec and the documented behaviour of the standard
csv.DictWriter (standard library, not part of this repository): a row is
the record's values in fieldname order, missing keys filled with the empty
restval; a key outside the fieldnames makes the writer raise ValueError
(the default extrasaction is to raise). -/
def dict_to_row (fieldnames : List String) (d : Record) : Except String (List String) :=
  if d.any (fun kv => !(fieldnames.contains kv.1)) then
    Except.error "dict contains fields not in fieldnames"
  else Except.ok (fieldnames.map fun k => (d.lookup k).getD "")

/-- Python `writer.writerows(data)`: rows are converted in order and the
first record with extra keys raises. -/
def write_rows (fieldnames : List String) : List Record → Except String (List (List String))
  | [] => Except.ok []
  | d :: ds =>
    match dict_to_row fieldnames d with
    | Except.error e => Except.error e
    | Except.ok row =>
      match write_rows fieldnames ds with
      | Except.error e => Except.error e
      | Except.ok rows => Except.ok (row :: rows)

/-- The CSV artifact written by export_to_csv. -/
structure CsvFile where
  path : String
  header : List String
  rows : List (List String)
deriving DecidableEq

/-- Python DataStorage.export_to_csv: an empty record list returns the empty
string without touching the filesystem; otherwise the file at
`data_dir/filename` is written with the first record's keys as header row,
and its path returned.  The result is the returned string paired with the
written file (`none` when no file is created); a ValueError raised by the
writer surfaces as `Except.error` (the partially written file behind a raise
is not modelled). -/
def export_to_csv (data_dir : String) : List Record → String →
    Except String (String × Option CsvFile)
  | [], _ => Except.ok ("", none)
  | d0 :: ds, filename =>
    let fieldnames := Record.keys d0
    let filepath := data_dir ++ "/" ++ filename
    match write_rows fieldnames (d0 :: ds) with
    | Except.error e => Except.error e
    | Except.ok rows => Except.ok (filepath, some ⟨filepath, fieldnames, rows⟩)

end DataStorage

/-! ## Concrete data used by the witnesses -/

/-- A review block whose body selector resolves (with surrounding
whitespace) together with a reviewer name. -/
def sample_review_element : Element :=
  { selOne := fun sel =>
      if sel = "[data-hook=\"review-body\"]" then some " Great product, works well. "
      else if sel = ".a-profile-name" then some "Jane Roe"
      else none }

/-- A page with one review block under the primary review selector. -/
def sample_review_soup : Soup :=
  { select := fun sel =>
      if sel = "[data-hook=\"review\"]" then [sample_review_element] else [] }

/-- The review extracted from `sample_review_element`. -/
def sample_review : Review :=
  { reviewer_name := "Jane Roe", rating := 0, title := "",
    text := "Great product, works well.", date := "", helpful_votes := 0 }

/-- A review block with a reviewer name but no resolvable body text. -/
def sample_bodyless_element : Element :=
  { selOne := fun sel => if sel = ".a-profile-name" then some "John Doe" else none }

/-- A listing with rating 4. -/
def listing_a : Listing :=
  { title := "A", price := "N/A", rating := 4, reviews_count := 10, url := none }

/-- A listing with rating 2. -/
def listing_b : Listing :=
  { title := "B", price := "N/A", rating := 2, reviews_count := 5, url := none }

/-- A search block carrying a title and a 4.5-star rating. -/
def sample_listing_element : Element :=
  { selOne := fun sel =>
      if sel = "h2 a span" then some "Widget"
      else if sel = ".a-icon-alt" then some "4.5 out of 5 stars"
      else none }

/-- A search page with one listing block under the primary selector. -/
def sample_search_soup : Soup :=
  { select := fun sel =>
      if sel = "div[data-component-type=\"s-search-result\"]"
      then [sample_listing_element] else [] }

/-- The listing extracted from `sample_listing_element`. -/
def widget_listing : Listing :=
  { title := "Widget", price := "N/A", rating := mkRat 9 2,
    reviews_count := 0, url := none }

/-- A robots environment that disallows the /private subtree for every
agent. -/
def sample_rules : RobotRules := ⟨fun _ => ["/private"]⟩

/-- The network that fails every request: each fetched page yields zero
reviews. -/
def empty_net : String → Option Soup := fun _ => none

/-- The reviews URL derived for ASIN B08N5WRWNW. -/
def b08_reviews_url : String :=
  "https://www.amazon.com/product-reviews/B08N5WRWNW/ref=cm_cr_dp_d_show_all_btm?ie=UTF8&reviewerType=all_reviews"

/-! ## Helper lemmas -/

theorem pyStripList_dropWhile (cs : List Char) :
    List.dropWhile Char.isWhitespace (pyStripList cs) = pyStripList cs := by
  rcases h : pyStripList cs with _ | ⟨a, t⟩
  · simp [List.dropWhile]
  · obtain ⟨u, hu⟩ := List.rdropWhile_prefix Char.isWhitespace
      (cs.dropWhile Char.isWhitespace)
    rw [pyStripList] at h
    rw [h] at hu
    have hlen : 0 < (List.dropWhile Char.isWhitespace cs).length := by
      rw [← hu]; simp
    have hget := List.dropWhile_get_zero_not Char.isWhitespace cs hlen
    have h' : List.dropWhile Char.isWhitespace cs = a :: (t ++ u) := by
      rw [← hu]; simp
    have h0 : (List.dropWhile Char.isWhitespace cs).get ⟨0, hlen⟩ = a := by
      rw [List.get_of_eq h' ⟨0, hlen⟩]
      exact List.get_cons_zero
    have ha : Char.isWhitespace a = false := by
      rw [h0] at hget
      simpa using hget
    simp [List.dropWhile_cons, ha]

theorem pyStripList_idempotent (cs : List Char) :
    pyStripList (pyStripList cs) = pyStripList cs := by
  conv_lhs => rw [pyStripList, pyStripList_dropWhile]
  rw [pyStripList, List.rdropWhile_idempotent]

theorem pyStrip_idempotent (s : String) : pyStrip (pyStrip s) = pyStrip s := by
  simp [pyStrip, pyStripList_idempotent]

/-- Every non-empty text produced by the parser's selector fallback is
already stripped. -/
theorem AmazonParser.extract_text_by_selectors_stripped (e : Element) :
    ∀ sels, AmazonParser.extract_text_by_selectors e sels = "" ∨
      pyStrip (AmazonParser.extract_text_by_selectors e sels) =
        AmazonParser.extract_text_by_selectors e sels := by
  intro sels
  induction sels with
  | nil => exact Or.inl rfl
  | cons sel rest ih =>
    rw [AmazonParser.extract_text_by_selectors]
    rcases hsel : e.selOne sel with _ | raw
    · exact ih
    · by_cases hr : pyStrip raw = ""
      · simpa [hr] using ih
      · simp only [hr, if_false]
        exact Or.inr (pyStrip_idempotent raw)

/-! ## C1 — helpful-votes parsing -/

/-- C1 (counterexample): the text with a thousands separator is mapped to 1,
not 1234 — the regex `\d+` stops at the comma and the code does not strip
separators. -/
theorem parse_helpful_votes_comma_counterexample :
    AmazonParser.parse_helpful_votes "1,234 people found this helpful" = 1 ∧
      (1 : ℕ) ≠ 1234 := by
  constructor
  · decide
  · decide

/-- C1 (amended): helpful-votes parsing maps "15 people found this helpful"
to 15, "1,234 people found this helpful" to 1 (the first run of digits ends
at the comma; thousands separators are not stripped), and empty text to 0. -/
theorem parse_helpful_votes_spec :
    AmazonParser.parse_helpful_votes "15 people found this helpful" = 15 ∧
    AmazonParser.parse_helpful_votes "1,234 people found this helpful" = 1 ∧
    AmazonParser.parse_helpful_votes "" = 0 := by
  refine ⟨by decide, by decide, by decide⟩

/-! ## C4 — review body text is required -/

/-- C4: every review returned by parse_reviews has non-empty and
non-whitespace-only body text (a string equal to its own strip and not
empty), and a block whose body text resolves to nothing is discarded
entirely — extraction returns `None` whatever the other fields contained. -/
theorem parse_reviews_body_required :
    (∀ (soup : Soup), ∀ r ∈ AmazonParser.parse_reviews soup,
        r.text ≠ "" ∧ pyStrip r.text = r.text) ∧
    (∀ e : Element,
        AmazonParser.extract_text_by_selectors e AmazonParser.text_selectors = "" →
        AmazonParser.extract_single_review e = none) := by
  constructor
  · intro soup r hr
    obtain ⟨el, _, hsome⟩ := List.mem_filterMap.mp hr
    simp only [AmazonParser.extract_single_review] at hsome
    by_cases ht :
        AmazonParser.extract_text_by_selectors el AmazonParser.text_selectors = ""
    · rw [if_pos ht] at hsome
      cases hsome
    · rw [if_neg ht] at hsome
      have heq := Option.some.inj hsome
      rcases AmazonParser.extract_text_by_selectors_stripped el
        AmazonParser.text_selectors with h0 | hid
      · exact absurd h0 ht
      · subst heq
        refine ⟨?_, ?_⟩
        · show pyStrip _ ≠ ""
          rw [hid]; exact ht
        · show pyStrip (pyStrip _) = pyStrip _
          exact pyStrip_idempotent _
  · intro e he
    simp [AmazonParser.extract_single_review, he]


/-- C4 (witness): the sample review is produced with stripped non-empty
body, and the bodyless block is discarded even though its reviewer name was
extractable. -/
theorem parse_reviews_body_required_witness :
    sample_review ∈ AmazonParser.parse_reviews sample_review_soup ∧
    (sample_review.text ≠ "" ∧ pyStrip sample_review.text = sample_review.text) ∧
    AmazonParser.extract_text_by_selectors sample_bodyless_element
      AmazonParser.text_selectors = "" ∧
    AmazonParser.extract_single_review sample_bodyless_element = none :=
  ⟨by decide,
   parse_reviews_body_required.1 sample_review_soup sample_review (by decide),
   by decide,
   parse_reviews_body_required.2 sample_bodyless_element (by decide)⟩

/-! ## C2 — rating filter and pipeline invariant -/

theorem filter_by_rating_mem_le (products : List Listing) (m : ℚ) :
    ∀ l ∈ AmazonParser.filter_by_rating products m, m ≤ l.rating := by
  intro l hl
  exact of_decide_eq_true (List.mem_filter.mp hl).2

/-- Attaching reviews never changes a listing's rating. -/
theorem attach_reviews_rating (p : Listing) (net : String → Option Soup) (mrp : ℕ) :
    (match p.url with
      | some u =>
        { p with reviews := (ReviewCrawler.crawl_product_reviews net u mrp 10).1 }
      | none => p).rating = p.rating := by
  cases p.url <;> rfl

/-- C2: with a positive threshold every listing in the final result of
crawl_products has rating at least `min_rating`; filter_by_rating returns a
stable-order subsequence all of whose elements meet the threshold, and is
the identity for a non-positive threshold on listings with the data-model
ratings (which are never negative). -/
theorem rating_filter_spec :
    (∀ (robots_fetch : Except Unit RobotRules) (response : Option Soup)
        (net : String → Option Soup) (min_rating : ℚ) (max_results : ℕ)
        (cr ia uy ay : Bool) (mrp : ℕ), 0 < min_rating →
        ∀ l ∈ AmazonCrawler.crawl_products robots_fetch response net min_rating
          max_results cr ia uy ay mrp, min_rating ≤ l.rating) ∧
    (∀ (products : List Listing) (m : ℚ),
        List.Sublist (AmazonParser.filter_by_rating products m) products) ∧
    (∀ (products : List Listing) (m : ℚ),
        ∀ l ∈ AmazonParser.filter_by_rating products m, m ≤ l.rating) ∧
    (∀ (products : List Listing) (m : ℚ), m ≤ 0 →
        (∀ p ∈ products, 0 ≤ p.rating) →
        AmazonParser.filter_by_rating products m = products) := by
  refine ⟨?_, ?_, ?_, ?_⟩
  · intro rf resp net mr mx cr ia uy ay mrp hmr l hl
    unfold AmazonCrawler.crawl_products at hl
    by_cases hrb : (RobotsChecker.can_crawl rf "/s" "*").1 = false
    · rw [if_pos hrb] at hl
      cases hl
    · rw [if_neg hrb] at hl
      rcases hb : AmazonCrawler.resolve_crawl_reviews cr ia uy ay with _ | _
      · simp only [if_pos hmr, hb, Bool.false_eq_true, if_false] at hl
        exact filter_by_rating_mem_le _ _ l hl
      · simp only [if_pos hmr, hb, if_true] at hl
        obtain ⟨p, hp, hfp⟩ := List.mem_map.mp hl
        have hrat := attach_reviews_rating p net mrp
        rw [hfp] at hrat
        rw [hrat]
        exact filter_by_rating_mem_le _ _ p hp
  · intro products m
    exact List.filter_sublist products
  · exact filter_by_rating_mem_le
  · intro products m hm hpos
    unfold AmazonParser.filter_by_rating
    refine List.filter_eq_self.mpr ?_
    intro p hp
    exact decide_eq_true (le_trans hm (hpos p hp))


/-- C2 (witness): the widget listing survives a pipeline run with threshold
3 and indeed has rating at least 3, and the filter is the identity on
non-negative-rated listings for a non-positive threshold. -/
theorem rating_filter_spec_witness :
    (0 : ℚ) < 3 ∧
    widget_listing ∈ AmazonCrawler.crawl_products (Except.ok ⟨fun _ => []⟩)
      (some sample_search_soup) (fun _ => none) 3 5 false false false false 2 ∧
    (3 : ℚ) ≤ widget_listing.rating ∧
    (-1 : ℚ) ≤ 0 ∧
    AmazonParser.filter_by_rating [listing_a, listing_b] (-1) = [listing_a, listing_b] :=
  ⟨by decide, by decide,
   rating_filter_spec.1 (Except.ok ⟨fun _ => []⟩) (some sample_search_soup)
     (fun _ => none) 3 5 false false false false 2 (by decide) widget_listing (by decide),
   by decide,
   rating_filter_spec.2.2.2 [listing_a, listing_b] (-1) (by decide) (by decide)⟩

/-! ## C3 — search-result extraction is bounded by max_results -/

/-- C3: for every markup and every cap, listing extraction returns at most
`max_results` listings, however many blocks the markup contains. -/
theorem parse_search_results_length_le (soup : Soup) (max_results : ℕ) :
    (AmazonSearcher.parse_search_results soup max_results).length ≤ max_results := by
  unfold AmazonSearcher.parse_search_results
  exact le_trans (List.length_filterMap_le _ _) (List.length_take_le _ _)

/-! ## C5 — review pagination -/

theorem crawl_pages_count_le (net : String → Option Soup) (u : String) (mr : ℕ) :
    ∀ remaining page, (ReviewCrawler.crawl_pages net u mr page remaining).2 ≤ remaining := by
  intro remaining
  induction remaining with
  | zero => intro page; simp [ReviewCrawler.crawl_pages]
  | succ r ih =>
    intro page
    simp only [ReviewCrawler.crawl_pages]
    by_cases h : ReviewCrawler.crawl_reviews_page net
        (ReviewCrawler.add_pagination_to_url u page) mr = []
    · simp [h]
    · simp only [h, if_false]
      exact Nat.succ_le_succ (ih (page + 1))

theorem crawl_pages_stops_at_empty (net : String → Option Soup) (u : String) (mr : ℕ) :
    ∀ remaining page k, page ≤ k → k < page + remaining →
      ReviewCrawler.crawl_reviews_page net (ReviewCrawler.add_pagination_to_url u k) mr = [] →
      (ReviewCrawler.crawl_pages net u mr page remaining).2 ≤ k + 1 - page := by
  intro remaining
  induction remaining with
  | zero => intro page k h1 h2 _; omega
  | succ r ih =>
    intro page k h1 h2 hk
    simp only [ReviewCrawler.crawl_pages]
    by_cases h : ReviewCrawler.crawl_reviews_page net
        (ReviewCrawler.add_pagination_to_url u page) mr = []
    · simp only [h, if_true]
      omega
    · simp only [h, if_false]
      have hpk : page ≠ k := by rintro rfl; exact h hk
      have := ih (page + 1) k (by omega) (by omega) hk
      omega

theorem crawl_pages_result_eq (net : String → Option Soup) (u : String) (mr : ℕ) :
    ∀ remaining page,
      (ReviewCrawler.crawl_pages net u mr page remaining).1 =
        ((List.range' page (ReviewCrawler.crawl_pages net u mr page remaining).2).map
          (fun j => ReviewCrawler.crawl_reviews_page net
            (ReviewCrawler.add_pagination_to_url u j) mr)).flatten := by
  intro remaining
  induction remaining with
  | zero => intro page; simp [ReviewCrawler.crawl_pages]
  | succ r ih =>
    intro page
    simp only [ReviewCrawler.crawl_pages]
    by_cases h : ReviewCrawler.crawl_reviews_page net
        (ReviewCrawler.add_pagination_to_url u page) mr = []
    · simp [h]
    · simp only [h, if_false]
      rw [List.range'_succ, List.map_cons, List.flatten_cons, ← ih (page + 1)]

/-- C5: review pagination never issues more than `max_pages` page fetches;
it stops issuing fetches as soon as one fetched page yields zero reviews
(the fetch count is bounded by the first empty page's number); and the
returned reviews are exactly the concatenation of the fetched pages'
(truncated) reviews — pages accumulated before the stop are returned. -/
theorem crawl_product_reviews_pagination (net : String → Option Soup)
    (product_url : String) (max_pages max_reviews : ℕ) :
    (ReviewCrawler.crawl_product_reviews net product_url max_pages max_reviews).2 ≤
      max_pages ∧
    (∀ u, ReviewCrawler.get_reviews_url product_url = some u →
      ∀ k, 1 ≤ k → k ≤ max_pages →
        ReviewCrawler.crawl_reviews_page net
          (ReviewCrawler.add_pagination_to_url u k) max_reviews = [] →
        (ReviewCrawler.crawl_product_reviews net product_url max_pages max_reviews).2 ≤ k) ∧
    (∀ u, ReviewCrawler.get_reviews_url product_url = some u →
      (ReviewCrawler.crawl_product_reviews net product_url max_pages max_reviews).1 =
        ((List.range' 1
            (ReviewCrawler.crawl_product_reviews net product_url max_pages max_reviews).2).map
          (fun j => ReviewCrawler.crawl_reviews_page net
            (ReviewCrawler.add_pagination_to_url u j) max_reviews)).flatten) := by
  rcases hu : ReviewCrawler.get_reviews_url product_url with _ | u
  · refine ⟨?_, ?_, ?_⟩
    · simp [ReviewCrawler.crawl_product_reviews, hu]
    · intro u' hu'; exact Option.noConfusion hu'
    · intro u' hu'; exact Option.noConfusion hu'
  · have hcpr : ReviewCrawler.crawl_product_reviews net product_url max_pages max_reviews =
        ReviewCrawler.crawl_pages net u max_reviews 1 max_pages := by
      simp [ReviewCrawler.crawl_product_reviews, hu]
    refine ⟨?_, ?_, ?_⟩
    · rw [hcpr]
      exact crawl_pages_count_le net u max_reviews max_pages 1
    · intro u' hu' k hk1 hk2 hke
      obtain rfl := Option.some.inj hu'
      rw [hcpr]
      have := crawl_pages_stops_at_empty net u max_reviews max_pages 1 k hk1
        (by omega) hke
      omega
    · intro u' hu'
      obtain rfl := Option.some.inj hu'
      rw [hcpr]
      exact crawl_pages_result_eq net u max_reviews max_pages 1

/-! ## C6 — product-identifier extraction -/

theorem matchAsinAt_none_of_not_prefix {lit cs : List Char} (h : ¬ lit <+: cs) :
    matchAsinAt lit cs = none := by
  unfold matchAsinAt
  rw [if_neg]
  intro hb
  exact h (List.isPrefixOf_iff_prefix.mp hb)

theorem searchAsin_none_of_not_mem {x : Char} {lit : List Char} (hx : x ∈ lit) :
    ∀ {cs : List Char}, x ∉ cs → searchAsin lit cs = none := by
  intro cs
  induction cs with
  | nil =>
    intro _
    show matchAsinAt lit [] = none
    apply matchAsinAt_none_of_not_prefix
    intro hpre
    rw [List.prefix_nil.mp hpre] at hx
    cases hx
  | cons c cs ih =>
    intro hmem
    have h1 : matchAsinAt lit (c :: cs) = none := by
      apply matchAsinAt_none_of_not_prefix
      intro hpre
      exact hmem (hpre.subset hx)
    simp [searchAsin, h1, ih (fun hc => hmem (List.mem_cons_of_mem c hc))]

/-- C6 (counterexample): a URL that contains `/dp/B08N5WRWNW` yet is mapped
to a different identifier — `re.search` takes the leftmost pattern match, so
an earlier `/dp/` identifier in the URL wins. -/
theorem extract_asin_counterexample :
    List.IsInfix "/dp/B08N5WRWNW".data
      "https://www.amazon.com/dp/AAAAAAAAAA/dp/B08N5WRWNW".data ∧
    ReviewCrawler.extract_asin_from_url
      "https://www.amazon.com/dp/AAAAAAAAAA/dp/B08N5WRWNW" = some "AAAAAAAAAA" ∧
    ("AAAAAAAAAA" : String) ≠ "B08N5WRWNW" := by
  refine ⟨⟨"https://www.amazon.com/dp/AAAAAAAAAA".data, "".data, by decide⟩,
    by decide, by decide⟩

/-- C6 (amended): when the leftmost pattern occurrence is the `/dp/`
identifier itself — in particular for a canonical product URL
`https://www.amazon.com/dp/<ASIN>` — the extracted identifier is that ASIN;
and for every URL matching none of the three ordered patterns, review
crawling returns the empty sequence with zero page fetches. -/
theorem extract_asin_spec :
    (∀ asin : String, asin.data.length = 10 → asin.data.all isAsinChar = true →
      ReviewCrawler.extract_asin_from_url ("https://www.amazon.com/dp/" ++ asin) =
        some asin) ∧
    (∀ (net : String → Option Soup) (url : String) (max_pages max_reviews : ℕ),
      ReviewCrawler.extract_asin_from_url url = none →
      ReviewCrawler.crawl_product_reviews net url max_pages max_reviews = ([], 0)) := by
  constructor
  · intro asin h10 hall
    obtain ⟨d⟩ := asin
    have hd10 : d.length = 10 := h10
    have hdall : d.all isAsinChar = true := hall
    have hdata : ("https://www.amazon.com/dp/" ++ String.mk d).data =
        "https://www.amazon.com/dp/".data ++ d := String.data_append ..
    have henc :
        searchAsin "%2Fdp%2F".data ("https://www.amazon.com/dp/" ++ String.mk d).data =
          none := by
      apply searchAsin_none_of_not_mem (x := '%') (by decide)
      rw [hdata]
      intro hc
      rcases List.mem_append.mp hc with h | h
      · revert h; decide
      · have := List.all_eq_true.mp hdall _ h
        revert this; decide
    have hmatch : matchAsinAt ['/', 'd', 'p', '/'] ('/' :: 'd' :: 'p' :: '/' :: d) =
        some (String.mk d) := by
      have hpre : List.isPrefixOf ['/', 'd', 'p', '/'] ('/' :: 'd' :: 'p' :: '/' :: d) =
          true := List.isPrefixOf_iff_prefix.mpr ⟨d, rfl⟩
      unfold matchAsinAt
      rw [if_pos hpre]
      show (if (decide ((List.take 10 d).length = 10) && (List.take 10 d).all isAsinChar)
            = true then some (String.mk (List.take 10 d)) else none) = some (String.mk d)
      rw [List.take_of_length_le (le_of_eq hd10)]
      rw [if_pos (by rw [hd10, hdall]; decide)]
    have hdp : searchAsin "/dp/".data ("https://www.amazon.com/dp/" ++ String.mk d).data =
        some (String.mk d) := by
      rw [hdata]
      have hlit : "/dp/".data = ['/', 'd', 'p', '/'] := by decide
      have hbase : "https://www.amazon.com/dp/".data =
          ['h', 't', 't', 'p', 's', ':', '/', '/', 'w', 'w', 'w', '.', 'a', 'm',
           'a', 'z', 'o', 'n', '.', 'c', 'o', 'm', '/', 'd', 'p', '/'] := by decide
      rw [hlit, hbase]
      have step : searchAsin ['/', 'd', 'p', '/']
          (['h', 't', 't', 'p', 's', ':', '/', '/', 'w', 'w', 'w', '.', 'a', 'm',
            'a', 'z', 'o', 'n', '.', 'c', 'o', 'm', '/', 'd', 'p', '/'] ++ d) =
          (match matchAsinAt ['/', 'd', 'p', '/'] ('/' :: 'd' :: 'p' :: '/' :: d) with
            | some a => some a
            | none => searchAsin ['/', 'd', 'p', '/'] ('d' :: 'p' :: '/' :: d)) := rfl
      rw [step, hmatch]
    unfold ReviewCrawler.extract_asin_from_url
    rw [henc, hdp]
  · intro net url mp mr h
    simp [ReviewCrawler.crawl_product_reviews, ReviewCrawler.get_reviews_url, h]

/-- C6 (witness): the canonical B08N5WRWNW product URL extracts its ASIN,
and an identifier-free URL yields an empty crawl with zero fetches. -/
theorem extract_asin_spec_witness :
    ("B08N5WRWNW" : String).data.length = 10 ∧
    ("B08N5WRWNW" : String).data.all isAsinChar = true ∧
    ReviewCrawler.extract_asin_from_url
      ("https://www.amazon.com/dp/" ++ "B08N5WRWNW") = some "B08N5WRWNW" ∧
    ReviewCrawler.extract_asin_from_url "https://www.example.com/item?id=42" = none ∧
    ReviewCrawler.crawl_product_reviews (fun _ => none)
      "https://www.example.com/item?id=42" 3 10 = ([], 0) :=
  ⟨by decide, by decide,
   extract_asin_spec.1 "B08N5WRWNW" (by decide) (by decide),
   by decide,
   extract_asin_spec.2 (fun _ => none) "https://www.example.com/item?id=42" 3 10
     (by decide)⟩

/-! ## C7 — rating-text parsing -/

theorem findFloatToken_eq_none {cs : List Char} (h : ∀ c ∈ cs, c.isDigit = false) :
    findFloatToken cs = none := by
  induction cs with
  | nil => rfl
  | cons c cs ih =>
    have hc : c.isDigit = false := h c (List.mem_cons_self c cs)
    have hm : matchFloatAt (c :: cs) = none := by
      simp [matchFloatAt, List.takeWhile_cons, hc]
    simp [findFloatToken, hm, ih (fun x hx => h x (List.mem_cons_of_mem c hx))]

/-- C7: rating-text parsing maps "4.5 out of 5 stars" to 4.5, "5 out of 5
stars" to 5.0 and empty text to 0.0; the searcher's copy agrees with the
review parser's on every input (both are total — no exception escapes, the
failure paths return 0.0); and any text without a digit parses to 0.0. -/
theorem rating_parsing_spec :
    AmazonParser.parse_rating_from_text "4.5 out of 5 stars" = 9 / 2 ∧
    AmazonParser.parse_rating_from_text "5 out of 5 stars" = 5 ∧
    AmazonParser.parse_rating_from_text "" = 0 ∧
    (∀ s : String, AmazonSearcher.parse_rating s = AmazonParser.parse_rating_from_text s) ∧
    (∀ s : String, (∀ c ∈ s.data, c.isDigit = false) →
      AmazonParser.parse_rating_from_text s = 0) := by
  refine ⟨?_, by decide, by decide, fun s => rfl, ?_⟩
  · have h : AmazonParser.parse_rating_from_text "4.5 out of 5 stars" = mkRat 9 2 := by
      decide
    rw [h]; norm_num [mkRat]
  · intro s hs
    unfold AmazonParser.parse_rating_from_text
    by_cases h0 : s = ""
    · rw [if_pos h0]
    · rw [if_neg h0, findFloatToken_eq_none hs]

/-- C7 (witness): a digit-free text parses to 0.0, and the two copies agree
there. -/
theorem rating_parsing_spec_witness :
    AmazonParser.parse_rating_from_text "no stars here!" = 0 ∧
    AmazonSearcher.parse_rating "out of" = AmazonParser.parse_rating_from_text "out of" :=
  ⟨rating_parsing_spec.2.2.2.2 "no stars here!" (by decide),
   rating_parsing_spec.2.2.2.1 "out of"⟩

/-! ## C8 — robots check fails open and obeys Disallow -/

/-- C8: when the robots read raises, can_crawl answers true for every path
and agent; when it succeeds, a path covered by an explicit Disallow prefix
of the agent's section is answered false. -/
theorem can_crawl_fail_open_and_disallow :
    (∀ (e : Unit) (path agent : String),
      (RobotsChecker.can_crawl (Except.error e) path agent).1 = true) ∧
    (∀ (rules : RobotRules) (path agent p : String),
      p ∈ rules.disallow agent → p.data.isPrefixOf path.data = true →
      (RobotsChecker.can_crawl (Except.ok rules) path agent).1 = false) := by
  constructor
  · intro e path agent; rfl
  · intro rules path agent p hp hpre
    show rules.canFetch agent path = false
    unfold RobotRules.canFetch
    refine List.all_eq_false.mpr ⟨p, hp, ?_⟩
    rw [hpre]
    decide


/-- C8 (witness): a failed fetch permits /s, and a successful fetch with an
explicit Disallow on /private denies /private/photos. -/
theorem can_crawl_fail_open_and_disallow_witness :
    (RobotsChecker.can_crawl (Except.error ()) "/s" "*").1 = true ∧
    "/private" ∈ sample_rules.disallow "*" ∧
    "/private".data.isPrefixOf "/private/photos".data = true ∧
    (RobotsChecker.can_crawl (Except.ok sample_rules) "/private/photos" "*").1 = false :=
  ⟨can_crawl_fail_open_and_disallow.1 () "/s" "*",
   by decide, by decide,
   can_crawl_fail_open_and_disallow.2 sample_rules "/private/photos" "*" "/private"
     (by decide) (by decide)⟩

/-! ## C9 — robots caching -/

/-- C9 (counterexample): two can_crawl calls on one checker perform two
robots fetch attempts, not one — `read()` runs on every call, so nothing is
cached across calls. -/
theorem can_crawl_no_cache_counterexample :
    (RobotsChecker.can_crawl_calls (Except.ok ⟨fun _ => []⟩)
      [("/s", "*"), ("/s", "*")]).2 = 2 ∧ ¬ ((2 : ℕ) ≤ 1) := by
  exact ⟨rfl, by decide⟩

/-- C9 (amended): the checker performs exactly one robots fetch attempt per
can_crawl call — a sequence of n calls performs n fetch attempts; there is
no cached parse reused by later calls. -/
theorem can_crawl_fetches_every_call (robots_fetch : Except Unit RobotRules)
    (calls : List (String × String)) :
    (RobotsChecker.can_crawl_calls robots_fetch calls).2 = calls.length := by
  induction calls with
  | nil => rfl
  | cons c rest ih =>
    obtain ⟨path, agent⟩ := c
    have h1 : (RobotsChecker.can_crawl robots_fetch path agent).2 = 1 := by
      cases robots_fetch <;> rfl
    simp only [RobotsChecker.can_crawl_calls, h1, ih, List.length_cons]
    omega

/-! ## C10 — CSV export -/

theorem write_rows_ok (fieldnames : List String) :
    ∀ data : List DataStorage.Record,
      (∀ d ∈ data, ∀ kv ∈ d, fieldnames.contains kv.1 = true) →
      DataStorage.write_rows fieldnames data =
        Except.ok (data.map fun d => fieldnames.map fun k => (d.lookup k).getD "") := by
  intro data
  induction data with
  | nil => intro _; rfl
  | cons d ds ih =>
    intro h
    have hany : (d.any fun kv => !(fieldnames.contains kv.1)) = false := by
      rw [List.any_eq_false]
      intro kv hkv
      have hc := h d (List.mem_cons_self d ds) kv hkv
      simp only [hc, Bool.not_true]
      exact Bool.false_ne_true
    have hrow : DataStorage.dict_to_row fieldnames d =
        Except.ok (fieldnames.map fun k => (d.lookup k).getD "") := by
      unfold DataStorage.dict_to_row
      rw [if_neg (fun hc => Bool.false_ne_true (hany ▸ hc))]
    simp [DataStorage.write_rows, hrow,
      ih (fun d' hd' => h d' (List.mem_cons_of_mem d hd'))]

/-- C10 (counterexample): a non-empty record list whose second record has a
key outside the first record's keys makes the writer raise ValueError — the
call does not return the file path. -/
theorem export_to_csv_extra_key_counterexample :
    ([[("a", "1")], [("a", "2"), ("b", "3")]] : List DataStorage.Record) ≠ [] ∧
    DataStorage.export_to_csv "data" [[("a", "1")], [("a", "2"), ("b", "3")]] "out.csv" =
      Except.error "dict contains fields not in fieldnames" := by
  exact ⟨by decide, rfl⟩

/-- C10 (amended): an empty record list returns the empty string and creates
no file; a non-empty list whose records use only keys of the first record is
written with the first record's keys as header row, and the file's path is
returned. -/
theorem export_to_csv_spec :
    (∀ dir fn : String, DataStorage.export_to_csv dir [] fn = Except.ok ("", none)) ∧
    (∀ (dir fn : String) (d0 : DataStorage.Record) (ds : List DataStorage.Record),
      (∀ d ∈ d0 :: ds, ∀ kv ∈ d, (DataStorage.Record.keys d0).contains kv.1 = true) →
      DataStorage.export_to_csv dir (d0 :: ds) fn =
        Except.ok (dir ++ "/" ++ fn,
          some { path := dir ++ "/" ++ fn, header := DataStorage.Record.keys d0,
                 rows := (d0 :: ds).map fun d => (DataStorage.Record.keys d0).map
                   fun k => (d.lookup k).getD "" })) := by
  constructor
  · intro dir fn; rfl
  · intro dir fn d0 ds h
    simp only [DataStorage.export_to_csv]
    rw [write_rows_ok (DataStorage.Record.keys d0) (d0 :: ds) h]

/-- C10 (witness): the empty export and a uniform two-record export. -/
theorem export_to_csv_spec_witness :
    DataStorage.export_to_csv "data" [] "empty.csv" = Except.ok ("", none) ∧
    DataStorage.export_to_csv "data"
      [[("title", "Widget"), ("rating", "4.5")], [("title", "Gadget"), ("rating", "3.0")]]
      "out.csv" =
      Except.ok ("data" ++ "/" ++ "out.csv",
        some { path := "data" ++ "/" ++ "out.csv", header := ["title", "rating"],
               rows := [["Widget", "4.5"], ["Gadget", "3.0"]] }) :=
  ⟨export_to_csv_spec.1 "data" "empty.csv",
   by
     have h := export_to_csv_spec.2 "data" "out.csv"
       [("title", "Widget"), ("rating", "4.5")]
       [[("title", "Gadget"), ("rating", "3.0")]] (by decide)
     rw [h]
     rfl⟩


/-- C5 (witness): crawling the B08N5WRWNW product against the empty network
with a three-page budget stops after the single first fetch, which yielded
zero reviews. -/
theorem crawl_product_reviews_pagination_witness :
    ReviewCrawler.get_reviews_url "https://www.amazon.com/dp/B08N5WRWNW" =
      some b08_reviews_url ∧
    (1 : ℕ) ≤ 1 ∧ (1 : ℕ) ≤ 3 ∧
    ReviewCrawler.crawl_reviews_page empty_net
      (ReviewCrawler.add_pagination_to_url b08_reviews_url 1) 10 = [] ∧
    (ReviewCrawler.crawl_product_reviews empty_net
      "https://www.amazon.com/dp/B08N5WRWNW" 3 10).2 ≤ 1 :=
  ⟨by decide, by decide, by decide, by decide,
   (crawl_product_reviews_pagination empty_net
       "https://www.amazon.com/dp/B08N5WRWNW" 3 10).2.1 b08_reviews_url (by decide)
     1 (by decide) (by decide) (by decide)⟩
